import Mathlib

/-!
Shallow embedding of the pull-request review pipeline of the
AI-GITHUB-WEB-CODEREVIEWER repository, together with theorems settling the
specification claims about it.

The embedded code lives in two source modules:
* `backend/services/git_service.py` — webhook signature verification,
  webhook payload parsing, and formatting of review feedback into inline
  comments (`GitHubService`);
* `backend/services/review_service.py` — review generation with its
  deterministic offline (mock) fallback, issue extraction from free-form
  review text, severity detection and overall assessment (`ReviewService`).

Python strings are modelled by `String`, with the relevant `str` methods
(`split`, `lower`, `strip`, slicing, the `in` substring test) translated
into executable Lean functions over the character list `String.data`.
-/

namespace CodeReviewer

/-! ### Python string primitives -/

/-- Python `needle in hay` prefix step: `hay` starts with `needle`. -/
def charsStartWith : List Char → List Char → Bool
  | [], _ => true
  | _ :: _, [] => false
  | a :: as, b :: bs => a == b && charsStartWith as bs

/-- Python `needle in hay` for strings, over character lists:
`needle` occurs contiguously inside `hay`. -/
def charsContain (needle : List Char) : List Char → Bool
  | [] => needle.isEmpty
  | c :: t => charsStartWith needle (c :: t) || charsContain needle t

/-- Python `needle in hay` on strings. -/
def strIn (needle hay : String) : Bool :=
  charsContain needle.data hay.data

/-- Python `str.split(sep)` for a one-character separator: splits on every
occurrence, keeping empty pieces, so the result always has
`count sep + 1` pieces. -/
def pySplit (sep : Char) : List Char → List (List Char)
  | [] => [[]]
  | c :: cs =>
    if c == sep then [] :: pySplit sep cs
    else
      match pySplit sep cs with
      | [] => [[c]]
      | p :: ps => (c :: p) :: ps

/-- Python `str.lower` on one ASCII character: `'A'..'Z'` map 32 code
points up, everything else is unchanged. -/
def pyCharLower (c : Char) : Char :=
  if 'A' ≤ c ∧ c ≤ 'Z' then Char.ofNat (c.toNat + 32) else c

/-- ASCII upper-case test (`'A' ≤ c ≤ 'Z'`), as Python's `str.isupper`
would report for a single ASCII character. -/
def isUpperAscii (c : Char) : Bool :=
  decide ('A' ≤ c) && decide (c ≤ 'Z')

/-- Python `str.lower`. -/
def pyLower (s : String) : String :=
  ⟨s.data.map pyCharLower⟩

/-- Python `str.strip`: drop leading and trailing whitespace. -/
def pyStrip (s : String) : String :=
  ⟨((s.data.dropWhile Char.isWhitespace).reverse.dropWhile Char.isWhitespace).reverse⟩

/-- Python `s[:n]` (slicing counts code points). -/
def pyTake (n : Nat) (s : String) : String :=
  ⟨s.data.take n⟩

/-- Python `text.split('\n')`. -/
def pyLines (s : String) : List String :=
  (pySplit (Char.ofNat 10) s.data).map String.mk

/-! ### Data model (`ReviewService` / `GitHubService` values) -/

/-- A changed-file record; the services only read its `"filename"` key. -/
structure FileInfo where
  filename : String
deriving DecidableEq, Repr

/-- One issue extracted from review text
(`{"file", "line", "message", "severity"}` in the source). -/
structure Issue where
  file : String
  line : Nat
  message : String
  severity : String
deriving DecidableEq, Repr

/-- The structured review feedback produced by `ReviewService`
(`{"summary", "issues", "overall_assessment"}`). -/
structure ReviewFeedback where
  summary : String
  issues : List Issue
  overall_assessment : String
deriving DecidableEq, Repr

/-- A GitHub inline comment (`{"path", "line", "body"}`),
produced by `GitHubService.create_inline_comments`. -/
structure InlineComment where
  path : String
  line : Nat
  body : String
deriving DecidableEq, Repr

/-! ### `ReviewService` -/

/-- Embedding of `ReviewService._detect_severity`: ordered case-insensitive keyword
membership test on the text, first hit wins. -/
def detect_severity (text : String) : String :=
  let text_lower := pyLower text
  if ["critical", "security", "vulnerable", "exploit"].any
      (fun word => strIn word text_lower) then "critical"
  else if ["major", "bug", "error", "broken"].any
      (fun word => strIn word text_lower) then "major"
  else if ["minor", "style", "formatting", "suggestion"].any
      (fun word => strIn word text_lower) then "minor"
  else "info"

/-- The inner `for file_info in files: if filename in line.lower(): ... break`
loop of `ReviewService._extract_issues`: the first filename that occurs
verbatim inside the lowercased line.  Note the source lowercases the line
but not the filename. -/
def firstMatch (line : String) : List FileInfo → Option String
  | [] => none
  | f :: fs =>
    if strIn f.filename (pyLower line) then some f.filename
    else firstMatch line fs

/-- One iteration of the outer line loop of `ReviewService._extract_issues`:
the issue emitted for `line`, when some filename matches it. -/
def issueForLine (files : List FileInfo) (line : String) : Option Issue :=
  (firstMatch line files).map fun fn =>
    { file := fn, line := 1, message := pyStrip line, severity := detect_severity line }

/-- The general fallback issue of `ReviewService._extract_issues`: first
file of the list, line 1, the first 200 characters of the review text with
`"..."` appended, severity `"info"`. -/
def fallbackIssue (review_text : String) (f : FileInfo) : Issue :=
  { file := f.filename, line := 1,
    message := pyTake 200 review_text ++ "...", severity := "info" }

/-- Embedding of `ReviewService._extract_issues`: scan every line of the review text for
known filenames; if the scan finds nothing and the file list is non-empty,
emit the single fallback issue on the first file. -/
def extract_issues (review_text : String) (files : List FileInfo) : List Issue :=
  match (pyLines review_text).filterMap (issueForLine files), files with
  | [], f :: _ => [fallbackIssue review_text f]
  | issues, _ => issues

/-- Embedding of `ReviewService._get_overall_assessment`: ordered case-insensitive
keyword tests over the whole text. -/
def get_overall_assessment (review_text : String) : String :=
  let text_lower := pyLower review_text
  if ["critical", "security", "vulnerable", "broken"].any
      (fun word => strIn word text_lower) then
    "❌ Changes need attention - critical issues found"
  else if ["major", "bug", "error"].any (fun word => strIn word text_lower) then
    "⚠️ Good start, but some issues need fixing"
  else if strIn "looks good" text_lower || strIn "lgtm" text_lower then
    "✅ Changes look good!"
  else
    "💬 Review completed - see comments for details"

/-- Embedding of `ReviewService._parse_ai_response`: package the review text into the
structured feedback (this is the spec's "Feedback Parser"). -/
def parse_ai_response (review_text : String) (files : List FileInfo) : ReviewFeedback :=
  { summary := review_text,
    issues := extract_issues review_text files,
    overall_assessment := get_overall_assessment review_text }

/-- Embedding of `ReviewService._mock_review_diff`: the deterministic offline fallback —
one informational issue per file for the first two files, fixed summary and
assessment strings. -/
def mock_review_diff (_diff : String) (files : List FileInfo) : ReviewFeedback :=
  { summary := "🤖 This is a MOCK review for testing. Enable OpenAI API for real reviews.\n\nThe code changes look reasonable in this test review.",
    issues := (files.take 2).map fun file_info =>
      { file := file_info.filename, line := 1,
        message := "✅ Mock review: " ++ file_info.filename ++ " looks good! (This is a test comment)",
        severity := "info" },
    overall_assessment := "💬 Mock review completed (testing mode)" }

/-- Python truthiness of `settings.openai_api_key : Optional[str]`:
`None` and the empty string are falsy. -/
def pyFalsy : Option String → Bool
  | none => true
  | some s => s == ""

/-- Embedding of `ReviewService.review_pr_diff`.  The call to the external generation
backend (`_ai_review_diff`, a network call into the OpenAI client) is
abstracted by the `ai_review` argument: `.ok fb` is a successful backend
review, `.error e` a raised exception.  With no configured credential the
mock is returned without consulting `ai_review`; a backend exception also
falls back to the mock. -/
def review_pr_diff (openai_api_key : Option String)
    (ai_review : Except String ReviewFeedback)
    (diff : String) (files : List FileInfo) : ReviewFeedback :=
  if pyFalsy openai_api_key then mock_review_diff diff files
  else
    match ai_review with
    | .ok fb => fb
    | .error _ => mock_review_diff diff files

/-- The spec's `overallAssessment` enumeration
`{critical, needsWork, lgtm, neutral}`. -/
inductive Assessment where
  | critical
  | needsWork
  | lgtm
  | neutral
deriving DecidableEq, Repr

/-- Modelled from the spec: the spec abstracts the concrete
`overall_assessment` strings of the source into the enumeration
`{critical, needsWork, lgtm, neutral}`; the three decisive strings of
`_get_overall_assessment` map to their labels and every other assessment
string is the `neutral` catch-all (the spec's "else `neutral`"). -/
def specAssessmentLabel (s : String) : Assessment :=
  if s == "❌ Changes need attention - critical issues found" then .critical
  else if s == "⚠️ Good start, but some issues need fixing" then .needsWork
  else if s == "✅ Changes look good!" then .lgtm
  else .neutral

/-! ### `GitHubService.verify_webhook_signature` -/

/-- Embedding of `GitHubService.verify_webhook_signature`.  The HMAC-SHA256 hex digest
computed by the Python standard library (`hmac.new(secret, body,
hashlib.sha256).hexdigest()`, external library code) is abstracted by the
`hmac_sha256_hexdigest` argument.  A raised `ValueError` is modelled as
`.error` carrying the exception message; `payload_body : List Nat` models
the raw `bytes` body.  The header is split on every `'='` (Python's
`split("=")`), and unpacking into `algorithm, github_signature` succeeds
only for exactly two pieces; `hmac.compare_digest` is equality of the two
digest strings. -/
def verify_webhook_signature (hmac_sha256_hexdigest : String → List Nat → String)
    (webhook_secret : String) (payload_body : List Nat)
    (signature_header : String) : Except String Bool :=
  if signature_header == "" then .error "❌ Missing signature header"
  else
    match pySplit '=' signature_header.data with
    | [_algorithm, github_signature] =>
      let expected_signature := hmac_sha256_hexdigest webhook_secret payload_body
      if String.mk github_signature == expected_signature then .ok true
      else .error "❌ Signature verification failed!"
    | _ => .error "❌ Invalid signature format"

/-! ### `GitHubService.parse_webhook_pr` -/

/-- A loosely-typed JSON value, the shape of a webhook payload. -/
inductive JValue where
  | null : JValue
  | bool (b : Bool) : JValue
  | num (n : Int) : JValue
  | str (s : String) : JValue
  | arr (elems : List JValue) : JValue
  | obj (fields : List (String × JValue)) : JValue
deriving Repr

/-- Outcome of Python's `value[key]` subscription. -/
inductive Lookup where
  | found (v : JValue)
  | keyError
  | typeError
deriving Repr

/-- Python `value[key]`: a `KeyError` on a dict without the key, a
`TypeError` on anything that is not a dict. -/
def JValue.pyIndex : JValue → String → Lookup
  | .obj fields, key =>
    match fields.lookup key with
    | some v => .found v
    | none => .keyError
  | _, _ => .typeError

/-- The dictionary built by `GitHubService.parse_webhook_pr`
(`action`, `pr_number`, `repo_owner`, `repo_name`, `pr_url`). -/
structure PRData where
  action : JValue
  pr_number : JValue
  repo_owner : JValue
  repo_name : JValue
  pr_url : JValue
deriving Repr

/-- Embedding of `GitHubService.parse_webhook_pr`.  `payload.get("action")` never
raises and yields `None` (here `.null`) when the key is absent; each
required chained subscription is attempted in the order of the source's
dict literal, a `KeyError` anywhere is caught and turned into `None`
(`.ok none`), while a `TypeError` (subscripting a non-dict) is not caught
(`.error ()`). -/
def parse_webhook_pr (payload : List (String × JValue)) : Except Unit (Option PRData) :=
  let action := (payload.lookup "action").getD .null
  match (JValue.obj payload).pyIndex "pull_request" with
  | .typeError => .error ()
  | .keyError => .ok none
  | .found pr =>
    match pr.pyIndex "number" with
    | .typeError => .error ()
    | .keyError => .ok none
    | .found num =>
      match (JValue.obj payload).pyIndex "repository" with
      | .typeError => .error ()
      | .keyError => .ok none
      | .found repo =>
        match repo.pyIndex "owner" with
        | .typeError => .error ()
        | .keyError => .ok none
        | .found owner =>
          match owner.pyIndex "login" with
          | .typeError => .error ()
          | .keyError => .ok none
          | .found login =>
            match repo.pyIndex "name" with
            | .typeError => .error ()
            | .keyError => .ok none
            | .found repo_name =>
              match pr.pyIndex "html_url" with
              | .typeError => .error ()
              | .keyError => .ok none
              | .found url =>
                .ok (some { action := action, pr_number := num,
                            repo_owner := login, repo_name := repo_name,
                            pr_url := url })

/-- The spec's `ChangeRequestDescriptor` invariant: `number > 0` and
`repoOwner`/`repoName` non-empty strings. -/
def descriptorInvariant (d : PRData) : Prop :=
  (∃ n : Int, d.pr_number = .num n ∧ 0 < n) ∧
  (∃ s : String, d.repo_owner = .str s ∧ s ≠ "") ∧
  (∃ s : String, d.repo_name = .str s ∧ s ≠ "")

/-! ### `GitHubService.create_inline_comments` -/

/-- Embedding of `GitHubService.create_inline_comments`: map each issue of the feedback
to a GitHub inline comment (`path` ← `file`, `line` ← `line`,
`body` ← `message`); the source's `if "issues" in review_feedback` guard is
always taken for the typed feedback value, which always carries `issues`. -/
def create_inline_comments (review_feedback : ReviewFeedback) : List InlineComment :=
  review_feedback.issues.map fun issue =>
    { path := issue.file, line := issue.line, body := issue.message }

/-! ### Helper lemmas -/

theorem pySplit_cons (sep c : Char) (cs : List Char) :
    pySplit sep (c :: cs) =
      if c == sep then [] :: pySplit sep cs
      else
        match pySplit sep cs with
        | [] => [[c]]
        | p :: ps => (c :: p) :: ps := rfl

theorem pySplit_ne_nil (sep : Char) (l : List Char) : pySplit sep l ≠ [] := by
  induction l with
  | nil => simp [pySplit]
  | cons c cs ih =>
    unfold pySplit
    by_cases h : c == sep
    · simp [h]
    · simp only [h]
      cases hs : pySplit sep cs with
      | nil => exact absurd hs ih
      | cons p ps => simp

theorem pySplit_of_not_mem (sep : Char) (l : List Char) (h : sep ∉ l) :
    pySplit sep l = [l] := by
  induction l with
  | nil => rfl
  | cons c cs ih =>
    have hc : ¬(c == sep) = true := by
      simp only [beq_iff_eq]
      intro hcs
      exact h (hcs ▸ List.mem_cons_self c cs)
    have hcs : sep ∉ cs := fun hm => h (List.mem_cons_of_mem _ hm)
    unfold pySplit
    rw [if_neg hc, ih hcs]

theorem pySplit_append (sep : Char) (a b : List Char) (h : sep ∉ a) :
    pySplit sep (a ++ sep :: b) = a :: pySplit sep b := by
  induction a with
  | nil => simp [pySplit]
  | cons c cs ih =>
    have hc : ¬(c == sep) = true := by
      simp only [beq_iff_eq]
      intro hcs
      exact h (hcs ▸ List.mem_cons_self c cs)
    have hcs : sep ∉ cs := fun hm => h (List.mem_cons_of_mem _ hm)
    have hih := ih hcs
    rw [List.cons_append, pySplit_cons, if_neg hc, hih]

theorem length_pySplit (sep : Char) (l : List Char) :
    (pySplit sep l).length = l.count sep + 1 := by
  induction l with
  | nil => simp [pySplit]
  | cons c cs ih =>
    rw [pySplit_cons]
    by_cases h : (c == sep) = true
    · rw [if_pos h]
      simp [List.count_cons, h, ih]
    · rw [if_neg h]
      have hcf : (c == sep) = false := by simpa using h
      cases hs : pySplit sep cs with
      | nil => exact absurd hs (pySplit_ne_nil sep cs)
      | cons p ps =>
        rw [hs] at ih
        simp only [List.length_cons] at ih
        simp [List.count_cons, hcf]
        omega

theorem charsStartWith_subset (n l : List Char) (h : charsStartWith n l = true) :
    ∀ c ∈ n, c ∈ l := by
  induction n generalizing l with
  | nil => intro c hc; cases hc
  | cons a as ih =>
    cases l with
    | nil => simp [charsStartWith] at h
    | cons b bs =>
      simp only [charsStartWith, Bool.and_eq_true, beq_iff_eq] at h
      intro c hc
      rcases List.mem_cons.mp hc with rfl | hmem
      · exact h.1 ▸ List.mem_cons_self _ _
      · exact List.mem_cons_of_mem _ (ih bs h.2 c hmem)

theorem charsContain_subset (n l : List Char) (h : charsContain n l = true) :
    ∀ c ∈ n, c ∈ l := by
  induction l with
  | nil =>
    simp only [charsContain, List.isEmpty_iff] at h
    subst h
    intro c hc; cases hc
  | cons b bs ih =>
    simp only [charsContain, Bool.or_eq_true] at h
    rcases h with h | h
    · exact charsStartWith_subset n (b :: bs) h
    · intro c hc
      exact List.mem_cons_of_mem _ (ih h c hc)

theorem char_le_iff_toNat {a b : Char} : a ≤ b ↔ a.toNat ≤ b.toNat := Iff.rfl

theorem char_toNat_ofNat_valid (n : Nat) (hv : n.isValidChar) :
    (Char.ofNat n).toNat = n := by
  rw [Char.ofNat, dif_pos hv]
  rfl

theorem pyCharLower_not_upper (c : Char) : isUpperAscii (pyCharLower c) = false := by
  unfold pyCharLower isUpperAscii
  split
  · rename_i h
    obtain ⟨h1, h2⟩ := h
    rw [char_le_iff_toNat] at h1 h2
    have hA : ('A').toNat = 65 := by decide
    have hZ : ('Z').toNat = 90 := by decide
    rw [hA] at h1; rw [hZ] at h2
    have hv : (c.toNat + 32).isValidChar := Or.inl (by omega)
    have ht : (Char.ofNat (c.toNat + 32)).toNat = c.toNat + 32 :=
      char_toNat_ofNat_valid _ hv
    simp only [Bool.and_eq_false_iff, decide_eq_false_iff_not]
    right
    rw [char_le_iff_toNat, ht, hZ]
    omega
  · rename_i h
    simp only [Bool.and_eq_false_iff, decide_eq_false_iff_not]
    by_cases hA : 'A' ≤ c
    · right; intro hZ; exact h ⟨hA, hZ⟩
    · left; exact hA

theorem mem_pyLower_not_upper (c : Char) (s : String) (h : c ∈ (pyLower s).data) :
    isUpperAscii c = false := by
  simp only [pyLower, List.mem_map] at h
  obtain ⟨a, _, rfl⟩ := h
  exact pyCharLower_not_upper a

/-- A string containing an upper-case ASCII character never occurs as a
substring of a lowercased string. -/
theorem strIn_pyLower_of_upper (needle : String) (s : String)
    (c : Char) (hc : c ∈ needle.data) (hup : isUpperAscii c = true) :
    strIn needle (pyLower s) = false := by
  by_contra h
  have h2 : charsContain needle.data (pyLower s).data = true := by
    simpa [strIn] using h
  have := charsContain_subset _ _ h2 c hc
  rw [mem_pyLower_not_upper c s this] at hup
  exact Bool.false_ne_true hup

/-! ### `firstMatch` and `extract_issues` lemmas -/

theorem firstMatch_mem (line : String) (files : List FileInfo) (fn : String)
    (h : firstMatch line files = some fn) :
    ∃ f ∈ files, fn = f.filename ∧ strIn f.filename (pyLower line) = true := by
  induction files with
  | nil => cases h
  | cons f fs ih =>
    unfold firstMatch at h
    by_cases hm : strIn f.filename (pyLower line) = true
    · rw [if_pos hm] at h
      exact ⟨f, List.mem_cons_self _ _, (Option.some.inj h).symm, hm⟩
    · rw [if_neg hm] at h
      obtain ⟨g, hg, hfn, hgm⟩ := ih h
      exact ⟨g, List.mem_cons_of_mem _ hg, hfn, hgm⟩

theorem firstMatch_of_first_index (line : String) (files : List FileInfo)
    (k : Nat) (hk : k < files.length)
    (hmatch : strIn (files.get ⟨k, hk⟩).filename (pyLower line) = true)
    (hbefore : ∀ j (hj : j < k),
      strIn (files.get ⟨j, Nat.lt_trans hj hk⟩).filename (pyLower line) = false) :
    firstMatch line files = some (files.get ⟨k, hk⟩).filename := by
  induction files generalizing k with
  | nil => cases hk
  | cons f fs ih =>
    cases k with
    | zero =>
      have hm2 : strIn f.filename (pyLower line) = true := hmatch
      show firstMatch line (f :: fs) = some f.filename
      unfold firstMatch
      rw [if_pos hm2]
    | succ k2 =>
      have h0 : strIn f.filename (pyLower line) = false := hbefore 0 (Nat.succ_pos k2)
      have hk2 : k2 < fs.length := Nat.lt_of_succ_lt_succ hk
      have hm2 : strIn (fs.get ⟨k2, hk2⟩).filename (pyLower line) = true := hmatch
      show firstMatch line (f :: fs) = some (fs.get ⟨k2, hk2⟩).filename
      unfold firstMatch
      rw [if_neg (by simp [h0])]
      exact ih k2 hk2 hm2
        (fun j hj => hbefore (j + 1) (Nat.succ_lt_succ hj))

theorem firstMatch_eq_none (line : String) (files : List FileInfo)
    (h : ∀ g ∈ files, strIn g.filename (pyLower line) = false) :
    firstMatch line files = none := by
  induction files with
  | nil => rfl
  | cons f fs ih =>
    unfold firstMatch
    rw [if_neg (by simp [h f (List.mem_cons_self f fs)])]
    exact ih (fun g hg => h g (List.mem_cons_of_mem f hg))

theorem issue_mem_filterMap_file (text : String) (files : List FileInfo)
    (i : Issue) (hi : i ∈ (pyLines text).filterMap (issueForLine files)) :
    ∃ f ∈ files, i.file = f.filename := by
  obtain ⟨line, _, hline⟩ := List.mem_filterMap.mp hi
  unfold issueForLine at hline
  rcases hfm : firstMatch line files with _ | fn
  · rw [hfm] at hline; cases hline
  · rw [hfm] at hline
    simp only [Option.map_some', Option.some.injEq] at hline
    obtain ⟨f, hf, hfn, _⟩ := firstMatch_mem line files fn hfm
    exact ⟨f, hf, by rw [← hline]; exact hfn⟩

theorem extract_issues_eq_fallback (text : String) (f : FileInfo) (fs : List FileInfo)
    (hscan : (pyLines text).filterMap (issueForLine (f :: fs)) = []) :
    extract_issues text (f :: fs) = [fallbackIssue text f] := by
  unfold extract_issues
  rw [hscan]

theorem extract_issues_eq_scan (text : String) (files : List FileInfo)
    (j : Issue) (js : List Issue)
    (hscan : (pyLines text).filterMap (issueForLine files) = j :: js) :
    extract_issues text files = j :: js := by
  unfold extract_issues
  rw [hscan]

theorem extract_issues_nil_files (text : String)
    (hscan : (pyLines text).filterMap (issueForLine []) = []) :
    extract_issues text [] = [] := by
  unfold extract_issues
  rw [hscan]

theorem extract_issues_file_mem (text : String) (files : List FileInfo)
    (i : Issue) (hi : i ∈ extract_issues text files) :
    ∃ f ∈ files, i.file = f.filename := by
  rcases hscan : (pyLines text).filterMap (issueForLine files) with _ | ⟨j, js⟩
  · cases files with
    | nil =>
      rw [extract_issues_nil_files text hscan] at hi
      cases hi
    | cons f fs =>
      rw [extract_issues_eq_fallback text f fs hscan] at hi
      simp only [List.mem_singleton] at hi
      exact ⟨f, List.mem_cons_self _ _, by rw [hi]; rfl⟩
  · rw [extract_issues_eq_scan text files j js hscan, ← hscan] at hi
    exact issue_mem_filterMap_file text files i hi

theorem extract_issues_of_scan (text : String) (files : List FileInfo)
    (line : String) (hline : line ∈ pyLines text)
    (i : Issue) (hi : issueForLine files line = some i) :
    i ∈ extract_issues text files := by
  have hmem : i ∈ (pyLines text).filterMap (issueForLine files) :=
    List.mem_filterMap.mpr ⟨line, hline, hi⟩
  rcases hscan : (pyLines text).filterMap (issueForLine files) with _ | ⟨j, js⟩
  · rw [hscan] at hmem
    cases hmem
  · rw [extract_issues_eq_scan text files j js hscan, ← hscan]
    exact hmem

theorem extract_issues_no_match (text : String) (f : FileInfo) (fs : List FileInfo)
    (h : ∀ line ∈ pyLines text, issueForLine (f :: fs) line = none) :
    extract_issues text (f :: fs) = [fallbackIssue text f] :=
  extract_issues_eq_fallback text f fs (List.filterMap_eq_nil_iff.mpr h)

theorem extract_issues_ne_nil (text : String) (f : FileInfo) (fs : List FileInfo) :
    extract_issues text (f :: fs) ≠ [] := by
  rcases hscan : (pyLines text).filterMap (issueForLine (f :: fs)) with _ | ⟨j, js⟩
  · rw [extract_issues_eq_fallback text f fs hscan]
    simp
  · rw [extract_issues_eq_scan text (f :: fs) j js hscan]
    simp

/-! ### Case equations for `verify_webhook_signature` -/

theorem verify_eq_empty (f : String → List Nat → String) (secret : String)
    (body : List Nat) (header : String) (h : header = "") :
    verify_webhook_signature f secret body header = .error "❌ Missing signature header" := by
  unfold verify_webhook_signature
  rw [if_pos (by simp [h])]

theorem verify_eq_two (f : String → List Nat → String) (secret : String)
    (body : List Nat) (header : String) (h : ¬header = "")
    (a s2 : List Char) (hs : pySplit '=' header.data = [a, s2]) :
    verify_webhook_signature f secret body header =
      if String.mk s2 == f secret body then .ok true
      else .error "❌ Signature verification failed!" := by
  unfold verify_webhook_signature
  rw [if_neg (by simpa using h), hs]

theorem verify_eq_other (f : String → List Nat → String) (secret : String)
    (body : List Nat) (header : String) (h : ¬header = "")
    (hs : ∀ a s2, pySplit '=' header.data ≠ [a, s2]) :
    verify_webhook_signature f secret body header = .error "❌ Invalid signature format" := by
  unfold verify_webhook_signature
  rw [if_neg (by simpa using h)]
  rcases hp : pySplit '=' header.data with _ | ⟨a, _ | ⟨b, _ | ⟨c, t⟩⟩⟩
  · rfl
  · rfl
  · exact absurd hp (hs a b)
  · rfl

theorem verify_result_cases (f : String → List Nat → String) (secret : String)
    (body : List Nat) (header : String) :
    verify_webhook_signature f secret body header = .ok true ∨
    ∃ e, verify_webhook_signature f secret body header = .error e := by
  by_cases h0 : header = ""
  · right
    exact ⟨_, verify_eq_empty f secret body header h0⟩
  · rcases hp : pySplit '=' header.data with _ | ⟨a, _ | ⟨b, _ | ⟨c, t⟩⟩⟩
    · right; exact ⟨_, verify_eq_other f secret body header h0 (by simp [hp])⟩
    · right; exact ⟨_, verify_eq_other f secret body header h0 (by simp [hp])⟩
    · rw [verify_eq_two f secret body header h0 a b hp]
      by_cases hc : (String.mk b == f secret body) = true
      · left; rw [if_pos hc]
      · right; rw [if_neg hc]; exact ⟨_, rfl⟩
    · right; exact ⟨_, verify_eq_other f secret body header h0 (by simp [hp])⟩

/-! ### Claim theorems -/

/-- C1: for every raw body, signature header and secret (and every choice
of the external HMAC-SHA256 hex-digest function), `verify_webhook_signature`
returns `true` exactly when the header is non-empty and splits on `'='`
into exactly two pieces whose second piece is the recomputed digest; it
never returns any other non-error value, and whenever the header is
absent, malformed, or carries a differing digest it raises
(`.error`, the source's `ValueError`, the spec's `AuthenticationError`) —
it never silently passes. -/
theorem C1_verify_signature_complete (f : String → List Nat → String)
    (secret : String) (body : List Nat) (header : String) :
    (verify_webhook_signature f secret body header = .ok true ↔
      header ≠ "" ∧ ∃ alg, pySplit '=' header.data = [alg, (f secret body).data]) ∧
    (∀ res : Bool, verify_webhook_signature f secret body header = .ok res → res = true) ∧
    ((header = "" ∨
      ∀ alg sig, pySplit '=' header.data = [alg, sig] → String.mk sig ≠ f secret body) →
      ∃ e, verify_webhook_signature f secret body header = .error e) := by
  have hiff : verify_webhook_signature f secret body header = .ok true ↔
      header ≠ "" ∧ ∃ alg, pySplit '=' header.data = [alg, (f secret body).data] := by
    constructor
    · intro h
      by_cases h0 : header = ""
      · rw [verify_eq_empty f secret body header h0] at h
        cases h
      · refine ⟨h0, ?_⟩
        rcases hp : pySplit '=' header.data with _ | ⟨a, _ | ⟨b, _ | ⟨c, t⟩⟩⟩
        · rw [verify_eq_other f secret body header h0 (by simp [hp])] at h; cases h
        · rw [verify_eq_other f secret body header h0 (by simp [hp])] at h; cases h
        · rw [verify_eq_two f secret body header h0 a b hp] at h
          by_cases hc : (String.mk b == f secret body) = true
          · have hb : String.mk b = f secret body := by simpa using hc
            have hb2 : b = (f secret body).data := by
              have := congrArg String.data hb
              simpa using this
            exact ⟨a, by rw [hb2]⟩
          · rw [if_neg hc] at h; cases h
        · rw [verify_eq_other f secret body header h0 (by simp [hp])] at h; cases h
    · rintro ⟨hne, alg, hsplit⟩
      rw [verify_eq_two f secret body header hne alg (f secret body).data hsplit]
      have : String.mk (f secret body).data = f secret body := rfl
      rw [this, if_pos (by simp)]
  refine ⟨hiff, ?_, ?_⟩
  · intro res h
    rcases verify_result_cases f secret body header with hv | ⟨e, hv⟩
    · rw [hv] at h
      exact (Except.ok.inj h).symm
    · rw [hv] at h
      cases h
  · intro hcond
    rcases verify_result_cases f secret body header with hv | he
    · obtain ⟨hne, alg, hsplit⟩ := hiff.mp hv
      rcases hcond with h0 | hmis
      · exact absurd h0 hne
      · exact absurd rfl (hmis alg (f secret body).data hsplit)
    · exact he

/-- Witness for C1: with the digest function constantly `"ab"`, the header
`"sha256=ab"` verifies. -/
theorem C1_witness :
    verify_webhook_signature (fun _ _ => "ab") "sec" [7] "sha256=ab" = .ok true :=
  (C1_verify_signature_complete (fun _ _ => "ab") "sec" [7] "sha256=ab").1.mpr
    ⟨by decide, "sha256".data, by decide⟩

/-- C10: the algorithm prefix of the signature header is ignored — for any
prefix free of `'='`, `"<prefix>=<correct digest>"` verifies even when the
prefix is not `"sha256"`; and a header containing two or more `'='`
characters always raises the format error (Python's two-variable unpacking
of `split("=")` fails on three or more pieces) rather than being split on
the first `'='`. -/
theorem C10_prefix_ignored (f : String → List Nat → String) (secret : String)
    (body : List Nat) (pfx : String) (hpfx : '=' ∉ pfx.data)
    (hd : '=' ∉ (f secret body).data) :
    verify_webhook_signature f secret body
      (String.mk (pfx.data ++ '=' :: (f secret body).data)) = .ok true ∧
    ∀ header : String, 2 ≤ header.data.count '=' →
      verify_webhook_signature f secret body header = .error "❌ Invalid signature format" := by
  constructor
  · have hdata : (String.mk (pfx.data ++ '=' :: (f secret body).data)).data
        = pfx.data ++ '=' :: (f secret body).data := rfl
    have hne : String.mk (pfx.data ++ '=' :: (f secret body).data) ≠ "" := by
      intro h
      have h2 := congrArg String.data h
      rw [hdata] at h2
      have : ("" : String).data = [] := rfl
      rw [this] at h2
      cases List.append_eq_nil.mp h2 with
      | intro h3 h4 => cases h4
    have hsplit : pySplit '=' (String.mk (pfx.data ++ '=' :: (f secret body).data)).data
        = [pfx.data, (f secret body).data] := by
      rw [hdata, pySplit_append '=' pfx.data (f secret body).data hpfx,
        pySplit_of_not_mem '=' (f secret body).data hd]
    rw [verify_eq_two f secret body _ hne pfx.data (f secret body).data hsplit]
    have : String.mk (f secret body).data = f secret body := rfl
    rw [this, if_pos (by simp)]
  · intro header hcount
    have hne : header ≠ "" := by
      intro h
      rw [h] at hcount
      have : ("" : String).data = [] := rfl
      rw [this] at hcount
      simp at hcount
    have hlen : (pySplit '=' header.data).length = header.data.count '=' + 1 :=
      length_pySplit '=' header.data
    refine verify_eq_other f secret body header hne ?_
    intro a s2 hs
    rw [hs] at hlen
    simp at hlen
    omega

/-- Witness for C10: the digest function constantly `"ab"` verifies
`"md5=ab"`, and `"a=b=c"` raises the format error. -/
theorem C10_witness :
    verify_webhook_signature (fun _ _ => "ab") "s" [] (String.mk ("md5".data ++ '=' :: ("ab" : String).data)) = .ok true ∧
    verify_webhook_signature (fun _ _ => "ab") "s" [] "a=b=c" = .error "❌ Invalid signature format" := by
  have h := C10_prefix_ignored (fun _ _ => "ab") "s" [] "md5" (by decide) (by decide)
  exact ⟨h.1, h.2 "a=b=c" (by decide)⟩

/-- C2 counterexample: a payload that lacks the `action` key but carries
all other required keys is parsed to a descriptor whose `action` is null —
not to `null` as the claim states (`payload.get("action")` never raises). -/
theorem C2_counterexample :
    parse_webhook_pr
      [("pull_request", .obj [("number", .num 7), ("html_url", .str "http://x")]),
       ("repository", .obj [("owner", .obj [("login", .str "alice")]), ("name", .str "r")])]
      = .ok (some { action := .null, pr_number := .num 7, repo_owner := .str "alice",
                    repo_name := .str "r", pr_url := .str "http://x" }) ∧
    parse_webhook_pr
      [("pull_request", .obj [("number", .num 7), ("html_url", .str "http://x")]),
       ("repository", .obj [("owner", .obj [("login", .str "alice")]), ("name", .str "r")])]
      ≠ .ok none := by
  refine ⟨rfl, ?_⟩
  intro h
  have h2 : (Except.ok (some
      ({ action := .null, pr_number := .num 7, repo_owner := .str "alice",
         repo_name := .str "r", pr_url := .str "http://x" } : PRData))
      : Except Unit (Option PRData)) = .ok none := h
  injection h2 with h3
  cases h3

/-- C2 (amended): a payload missing only the `action` key is parsed to a
descriptor whose `action` field is null (Python's `dict.get`), while a
missing key anywhere along the required chains `pull_request.number`,
`repository.owner.login`, `repository.name`, `pull_request.html_url`
yields `null` (the `KeyError` is caught), not an exception. -/
theorem C2_missing_keys (payload : List (String × JValue)) :
    (∀ (pr repo owner num login nm url : JValue),
      payload.lookup "action" = none →
      (JValue.obj payload).pyIndex "pull_request" = .found pr →
      pr.pyIndex "number" = .found num →
      (JValue.obj payload).pyIndex "repository" = .found repo →
      repo.pyIndex "owner" = .found owner →
      owner.pyIndex "login" = .found login →
      repo.pyIndex "name" = .found nm →
      pr.pyIndex "html_url" = .found url →
      parse_webhook_pr payload =
        .ok (some { action := .null, pr_number := num, repo_owner := login,
                    repo_name := nm, pr_url := url })) ∧
    (((JValue.obj payload).pyIndex "pull_request" = .keyError ∨
      (∃ pr, (JValue.obj payload).pyIndex "pull_request" = .found pr ∧
        (pr.pyIndex "number" = .keyError ∨
         (∃ num, pr.pyIndex "number" = .found num ∧
           ((JValue.obj payload).pyIndex "repository" = .keyError ∨
            (∃ repo, (JValue.obj payload).pyIndex "repository" = .found repo ∧
              (repo.pyIndex "owner" = .keyError ∨
               (∃ owner, repo.pyIndex "owner" = .found owner ∧
                 (owner.pyIndex "login" = .keyError ∨
                  (∃ login, owner.pyIndex "login" = .found login ∧
                    (repo.pyIndex "name" = .keyError ∨
                     (∃ nm, repo.pyIndex "name" = .found nm ∧
                       pr.pyIndex "html_url" = .keyError)))))))))))) →
      parse_webhook_pr payload = .ok none) := by
  constructor
  · intro pr repo owner num login nm url ha h1 h2 h3 h4 h5 h6 h7
    simp only [parse_webhook_pr, ha, Option.getD_none, h1, h2, h3, h4, h5, h6, h7]
  · intro hmiss
    rcases hmiss with h1 | ⟨pr, h1, h2 | ⟨num, h2, h3 | ⟨repo, h3, h4 |
      ⟨owner, h4, h5 | ⟨login, h5, h6 | ⟨nm, h6, h7⟩⟩⟩⟩⟩⟩
    · simp only [parse_webhook_pr, h1]
    · simp only [parse_webhook_pr, h1, h2]
    · simp only [parse_webhook_pr, h1, h2, h3]
    · simp only [parse_webhook_pr, h1, h2, h3, h4]
    · simp only [parse_webhook_pr, h1, h2, h3, h4, h5]
    · simp only [parse_webhook_pr, h1, h2, h3, h4, h5, h6]
    · simp only [parse_webhook_pr, h1, h2, h3, h4, h5, h6, h7]

/-- Witness for C2 (amended): a payload whose `pull_request` object lacks
`number` parses to `null`. -/
theorem C2_witness :
    parse_webhook_pr [("pull_request", .obj [("html_url", .str "u")])] = .ok none :=
  (C2_missing_keys [("pull_request", .obj [("html_url", .str "u")])]).2
    (Or.inr ⟨.obj [("html_url", .str "u")], rfl, Or.inl rfl⟩)

/-- C9 counterexample: the parser performs no validation — a payload whose
`pull_request.number` is `0` and whose owner login and repository name are
empty strings is still parsed to a (non-null) descriptor, violating the
claimed invariant `number > 0` with non-empty names. -/
theorem C9_counterexample :
    ¬ ∀ (payload : List (String × JValue)) (d : PRData),
        parse_webhook_pr payload = .ok (some d) → descriptorInvariant d := by
  intro h
  have hd := h
    [("action", .str "opened"),
     ("pull_request", .obj [("number", .num 0), ("html_url", .str "u")]),
     ("repository", .obj [("owner", .obj [("login", .str "")]), ("name", .str "")])]
    { action := .str "opened", pr_number := .num 0, repo_owner := .str "",
      repo_name := .str "", pr_url := .str "u" }
    rfl
  obtain ⟨⟨n, hn, hpos⟩, _, _⟩ := hd
  injection hn with h2
  rw [← h2] at hpos
  exact lt_irrefl 0 hpos

/-- C9 (amended): the parser copies the payload's values verbatim, so the
descriptor invariant (`number > 0`, non-empty owner and repository names)
holds exactly when the payload's own values satisfy it: for every payload
whose required chains resolve to a positive `number` and non-empty `login`
and `name` strings, the returned descriptor satisfies the invariant. -/
theorem C9_invariant_conditional (payload : List (String × JValue))
    (pr repo owner url : JValue) (n : Int) (lg nm : String)
    (hpr : (JValue.obj payload).pyIndex "pull_request" = .found pr)
    (hnum : pr.pyIndex "number" = .found (.num n))
    (hrep : (JValue.obj payload).pyIndex "repository" = .found repo)
    (hown : repo.pyIndex "owner" = .found owner)
    (hlog : owner.pyIndex "login" = .found (.str lg))
    (hnm : repo.pyIndex "name" = .found (.str nm))
    (hurl : pr.pyIndex "html_url" = .found url)
    (hn : 0 < n) (hlg : lg ≠ "") (hnm2 : nm ≠ "") :
    parse_webhook_pr payload =
      .ok (some { action := (payload.lookup "action").getD .null,
                  pr_number := .num n, repo_owner := .str lg,
                  repo_name := .str nm, pr_url := url }) ∧
    descriptorInvariant
      { action := (payload.lookup "action").getD .null,
        pr_number := .num n, repo_owner := .str lg,
        repo_name := .str nm, pr_url := url } := by
  constructor
  · simp only [parse_webhook_pr, hpr, hnum, hrep, hown, hlog, hnm, hurl]
  · exact ⟨⟨n, rfl, hn⟩, ⟨lg, rfl, hlg⟩, ⟨nm, rfl, hnm2⟩⟩

/-- Witness for C9 (amended): a well-formed payload with `number` 7 and
non-empty names yields a descriptor satisfying the invariant. -/
theorem C9_witness :
    descriptorInvariant
      { action := .str "opened", pr_number := .num 7,
        repo_owner := .str "alice", repo_name := .str "r",
        pr_url := .str "u" } :=
  (C9_invariant_conditional
    [("action", .str "opened"),
     ("pull_request", .obj [("number", .num 7), ("html_url", .str "u")]),
     ("repository", .obj [("owner", .obj [("login", .str "alice")]), ("name", .str "r")])]
    (.obj [("number", .num 7), ("html_url", .str "u")])
    (.obj [("owner", .obj [("login", .str "alice")]), ("name", .str "r")])
    (.obj [("login", .str "alice")]) (.str "u") 7 "alice" "r"
    rfl rfl rfl rfl rfl rfl rfl (by omega) (by decide) (by decide)).2

/-- C3: with no generation-backend credential configured, or when the
backend call raises, `review_pr_diff` returns the deterministic offline
mock instead of propagating the exception; in particular with no
credential and files `a.py`, `b.py` it yields exactly two issues, one per
file, a `neutral` assessment, and a result independent of the backend
outcome (no backend call is consulted). -/
theorem C3_offline_fallback :
    (∀ (key : Option String) (ai : Except String ReviewFeedback)
       (diff : String) (files : List FileInfo), pyFalsy key = true →
       review_pr_diff key ai diff files = mock_review_diff diff files) ∧
    (∀ (key : Option String) (e : String) (diff : String) (files : List FileInfo),
       review_pr_diff key (.error e) diff files = mock_review_diff diff files) ∧
    (∀ (ai : Except String ReviewFeedback) (diff : String),
       (review_pr_diff none ai diff [⟨"a.py"⟩, ⟨"b.py"⟩]).issues.length = 2 ∧
       (review_pr_diff none ai diff [⟨"a.py"⟩, ⟨"b.py"⟩]).issues.map Issue.file
         = ["a.py", "b.py"] ∧
       specAssessmentLabel
         (review_pr_diff none ai diff [⟨"a.py"⟩, ⟨"b.py"⟩]).overall_assessment
         = .neutral ∧
       ∀ ai2, review_pr_diff none ai diff [⟨"a.py"⟩, ⟨"b.py"⟩]
         = review_pr_diff none ai2 diff [⟨"a.py"⟩, ⟨"b.py"⟩]) := by
  have hkey : ∀ (key : Option String) (ai : Except String ReviewFeedback)
      (diff : String) (files : List FileInfo), pyFalsy key = true →
      review_pr_diff key ai diff files = mock_review_diff diff files := by
    intro key ai diff files h
    unfold review_pr_diff
    rw [if_pos h]
  refine ⟨hkey, ?_, ?_⟩
  · intro key e diff files
    by_cases h : pyFalsy key = true
    · exact hkey key (.error e) diff files h
    · unfold review_pr_diff
      rw [if_neg h]
  · intro ai diff
    have hmock := hkey none ai diff [⟨"a.py"⟩, ⟨"b.py"⟩] rfl
    refine ⟨by rw [hmock]; rfl, by rw [hmock]; rfl,
      by
        rw [hmock]
        exact (by decide :
          specAssessmentLabel "💬 Mock review completed (testing mode)" = .neutral),
      ?_⟩
    intro ai2
    rw [hmock, hkey none ai2 diff [⟨"a.py"⟩, ⟨"b.py"⟩] rfl]

/-- Witness for C3: with an empty-string credential (falsy) and a raising
backend, the mock is returned. -/
theorem C3_witness :
    review_pr_diff (some "") (.error "boom") "d" [⟨"x.py"⟩]
      = mock_review_diff "d" [⟨"x.py"⟩] :=
  C3_offline_fallback.1 (some "") (.error "boom") "d" [⟨"x.py"⟩] (by decide)

/-- C4 counterexample: the scan is not case-insensitive — the filename
`"A.py"` is compared verbatim against the lowercased line, so the line
`"a.py has a bug"` does not match it; the claim's predicted issue (trimmed
line text, severity `major` from "bug") is not emitted, and instead the
fallback issue (severity `info`, message with `"..."` appended) is. -/
theorem C4_counterexample :
    extract_issues "a.py has a bug" [⟨"A.py"⟩]
      = [{ file := "A.py", line := 1, message := "a.py has a bug...", severity := "info" }] ∧
    ({ file := "A.py", line := 1, message := "a.py has a bug", severity := "major" } : Issue)
      ∉ extract_issues "a.py has a bug" [⟨"A.py"⟩] := by
  decide

/-- C4 (amended): the per-line scan compares each filename verbatim
against the lowercased line (the filename itself is not case-folded): for
every line of the text, if the `k`-th filename occurs in the lowercased
line and no earlier one does, the issue
`{file, line 1, trimmed line, detectSeverity(line)}` is emitted (first
match wins); consequently a filename containing an upper-case ASCII
character never matches any line. -/
theorem C4_scan_verbatim_first_match (text : String) (files : List FileInfo) :
    (∀ line ∈ pyLines text, ∀ (k : Nat) (hk : k < files.length),
      strIn (files.get ⟨k, hk⟩).filename (pyLower line) = true →
      (∀ j (hj : j < k),
        strIn (files.get ⟨j, Nat.lt_trans hj hk⟩).filename (pyLower line) = false) →
      ({ file := (files.get ⟨k, hk⟩).filename, line := 1, message := pyStrip line,
         severity := detect_severity line } : Issue) ∈ extract_issues text files) ∧
    (∀ f ∈ files, ∀ line : String,
      (∃ c ∈ f.filename.data, isUpperAscii c = true) →
      strIn f.filename (pyLower line) = false) := by
  constructor
  · intro line hline k hk hmatch hbefore
    have hfm := firstMatch_of_first_index line files k hk hmatch hbefore
    exact extract_issues_of_scan text files line hline _
      (by unfold issueForLine; rw [hfm]; rfl)
  · intro f _ line ⟨c, hc, hup⟩
    exact strIn_pyLower_of_upper f.filename line c hc hup

/-- Witness for C4 (amended): the all-lowercase filename `"x.py"` matches
the line `"x.py bad"` and the corresponding issue is emitted. -/
theorem C4_witness :
    ({ file := "x.py", line := 1, message := "x.py bad", severity := "info" } : Issue)
      ∈ extract_issues "x.py bad" [⟨"x.py"⟩] := by
  have h := (C4_scan_verbatim_first_match "x.py bad" [⟨"x.py"⟩]).1
    "x.py bad" (by decide) 0 (by decide) (by decide)
    (fun j hj => absurd hj (Nat.not_lt_zero j))
  exact h

/-- C5 counterexample: the fallback message is not exactly the first 200
characters of the raw text — the source appends `"..."`
(`review_text[:200] + "..."`). -/
theorem C5_counterexample :
    extract_issues "ok" [⟨"a.py"⟩]
      = [{ file := "a.py", line := 1, message := "ok...", severity := "info" }] ∧
    ("ok..." : String) ≠ pyTake 200 "ok" := by
  decide

/-- C5 (amended): when the file list is non-empty and no line of the text
matches any filename, the parser emits exactly one fallback issue on the
first file with severity `info` and message the first 200 characters of
the text followed by `"..."`; and with a non-empty file list the issue
sequence is never empty. -/
theorem C5_fallback_issue (text : String) (f : FileInfo) (fs : List FileInfo) :
    ((∀ line ∈ pyLines text, ∀ g ∈ f :: fs, strIn g.filename (pyLower line) = false) →
      extract_issues text (f :: fs)
        = [{ file := f.filename, line := 1,
             message := pyTake 200 text ++ "...", severity := "info" }]) ∧
    extract_issues text (f :: fs) ≠ [] := by
  constructor
  · intro h
    exact extract_issues_no_match text f fs
      (fun line hline => by
        unfold issueForLine
        rw [firstMatch_eq_none line (f :: fs) (h line hline)]
        rfl)
  · exact extract_issues_ne_nil text f fs

/-- Witness for C5 (amended): on text `"nothing here"` with files
`[log.py]` exactly the fallback issue is produced. -/
theorem C5_witness :
    extract_issues "nothing here" [⟨"log.py"⟩]
      = [{ file := "log.py", line := 1,
           message := pyTake 200 "nothing here" ++ "...", severity := "info" }] :=
  (C5_fallback_issue "nothing here" ⟨"log.py"⟩ []).1 (by decide)

/-- C6: the overall assessment is a pure function of the text (equal texts
give equal labels), and any text containing "critical" (case-insensitive)
is assessed with the critical label regardless of other keywords. -/
theorem C6_assessment_critical :
    (∀ t1 t2 : String, t1 = t2 → get_overall_assessment t1 = get_overall_assessment t2) ∧
    (∀ text : String, strIn "critical" (pyLower text) = true →
      get_overall_assessment text = "❌ Changes need attention - critical issues found" ∧
      specAssessmentLabel (get_overall_assessment text) = .critical) := by
  refine ⟨fun t1 t2 h => congrArg get_overall_assessment h, ?_⟩
  intro text h
  have heq : get_overall_assessment text
      = "❌ Changes need attention - critical issues found" := by
    unfold get_overall_assessment
    rw [if_pos (by simp [List.any_cons, h])]
  exact ⟨heq, by rw [heq]; decide⟩

/-- Witness for C6: the text `"critical bug and lgtm"` (containing other
keywords too) is assessed critical. -/
theorem C6_witness :
    get_overall_assessment "critical bug and lgtm"
      = "❌ Changes need attention - critical issues found" :=
  (C6_assessment_critical.2 "critical bug and lgtm" (by decide)).1

/-- C7: the comment formatter is length- and order-preserving — one
comment per issue, in order, with `path`/`line`/`body` copied from
`file`/`line`/`message`. -/
theorem C7_format_preserving (fb : ReviewFeedback) :
    (create_inline_comments fb).length = fb.issues.length ∧
    (∀ (i : Nat) (h1 : i < (create_inline_comments fb).length)
       (h2 : i < fb.issues.length),
      ((create_inline_comments fb).get ⟨i, h1⟩).path = (fb.issues.get ⟨i, h2⟩).file ∧
      ((create_inline_comments fb).get ⟨i, h1⟩).line = (fb.issues.get ⟨i, h2⟩).line ∧
      ((create_inline_comments fb).get ⟨i, h1⟩).body = (fb.issues.get ⟨i, h2⟩).message) := by
  constructor
  · simp [create_inline_comments]
  · intro i h1 h2
    simp [create_inline_comments, List.get_eq_getElem, List.getElem_map]

/-- Witness for C7: a one-issue feedback maps to the matching one-comment
list. -/
theorem C7_witness :
    ((create_inline_comments
        { summary := "s",
          issues := [{ file := "f.py", line := 2, message := "m", severity := "info" }],
          overall_assessment := "a" }).get ⟨0, by decide⟩).path = "f.py" := by
  have h := (C7_format_preserving
    { summary := "s",
      issues := [{ file := "f.py", line := 2, message := "m", severity := "info" }],
      overall_assessment := "a" }).2 0 (by decide) (by decide)
  exact h.1.trans rfl

/-- C8: round-trip — every inline comment produced by formatting the
feedback parser's output references a filename present in the given file
list. -/
theorem C8_roundtrip_files (text : String) (files : List FileInfo)
    (c : InlineComment)
    (hc : c ∈ create_inline_comments (parse_ai_response text files)) :
    ∃ f ∈ files, c.path = f.filename := by
  unfold create_inline_comments parse_ai_response at hc
  obtain ⟨i, hi, hci⟩ := List.mem_map.mp hc
  obtain ⟨f, hf, hfile⟩ := extract_issues_file_mem text files i hi
  exact ⟨f, hf, by rw [← hci]; exact hfile⟩

/-- Witness for C8: the single comment produced for text `"x.py ok"` with
file list `[x.py]` references `"x.py"`. -/
theorem C8_witness :
    ∃ f ∈ [(⟨"x.py"⟩ : FileInfo)],
      ({ path := "x.py", line := 1, body := "x.py ok" } : InlineComment).path
        = f.filename :=
  C8_roundtrip_files "x.py ok" [⟨"x.py"⟩]
    { path := "x.py", line := 1, body := "x.py ok" } (by decide)

end CodeReviewer
